import Mathlib

/-!
# Neighborly — verification of the specified core against the repository

The repository `nickna/Neighborly` (Python slice) is a thin wrapper: a
packaging pipeline (`setup.py`, `build_package.py`) plus the module
`src/neighborly/database.py`, whose classes `Vector` and `VectorDatabase`
forward every call into the external `Neighborly.dll` (the .NET core, not
part of this source tree).

Accordingly this development has two layers:

* a model of the missing core (vector store, tag index, search engine,
  persistence), each definition marked `Modelled from the spec:`, and
* a faithful embedding of the Python wrapper code that IS in the tree
  (`Vector.__init__`, `VectorDatabase.add_vector` / `search`, and the
  package `__init__.py` import list), built on top of that model.

The spec (§6) leaves the exact numeric payload type (32- vs 64-bit
float) as a configuration choice at the marshalling boundary, so the
model is parameterized over a linearly ordered commutative ring `α` of
values; concrete examples instantiate `α := ℤ`, which already contains
every number appearing in the spec's worked examples.  The spec's
distance metric is Euclidean (L2); we compute the *squared* L2 distance
`dist2`, which induces the same comparison order (squaring is monotone
on nonnegative reals), so every ordering statement is unaffected, and on
the spec's worked example the claimed distances (0 and 1) coincide with
`dist2`.  Opaque ids (GUIDs in the .NET core) are modelled as naturals
drawn from a fresh-id counter: all the code relies on is that each newly
created id differs from every previously created one.
-/

namespace Neighborly

variable {α : Type} [LinearOrderedCommRing α]

/-- Error taxonomy, from spec §7. -/
inductive DbError where
  | DimensionMismatch
  | UnknownVector
  | NotFound
  | CorruptData
  | UnsupportedVersion
  deriving DecidableEq, Repr

/-- Modelled from the spec: the `Vector` record of the missing .NET core
(`Neighborly.dll`): a stable id, an ordered sequence of numeric values,
and an optional set of string tags (modelled as a list). -/
structure Vector (α : Type) where
  id : Nat
  values : List α
  tags : List String
  deriving DecidableEq, Repr

/-- Modelled from the spec: the state of the missing core's
`VectorDatabase` — the Vector Store (authoritative vectors, kept in
insertion order; ids are assigned ascending so insertion order and id
order agree), the established dimensionality (`none` until the first
insertion), the Tag Index (label ↦ ids), and the fresh-id counter. -/
structure Store (α : Type) where
  vectors : List (Vector α)
  dim : Option Nat
  tagIndex : List (String × List Nat)
  nextId : Nat
  deriving DecidableEq, Repr

/-- The empty store: no vectors, no established dimension, empty index. -/
def emptyStore : Store α := ⟨[], none, [], 0⟩

/-- Squared Euclidean (L2) distance between two value sequences.
Comparison order agrees with plain L2 distance. -/
def dist2 (a b : List α) : α :=
  ((a.zip b).map (fun p => (p.1 - p.2) * (p.1 - p.2))).sum

/-- Ids recorded under a label in the Tag Index (empty if the label is
unknown), spec §4.2 `ids_for`. -/
def idsFor (s : Store α) (label : String) : List Nat :=
  ((s.tagIndex.find? (fun p => p.1 = label)).map Prod.snd).getD []

/-- Add `i` under `label` in a Tag Index (creating the entry if absent). -/
def indexAdd (idx : List (String × List Nat)) (label : String) (i : Nat) :
    List (String × List Nat) :=
  match idx with
  | [] => [(label, [i])]
  | p :: rest =>
    if p.1 = label then (p.1, p.2 ++ [i]) :: rest
    else p :: indexAdd rest label i

/-- Remove `i` from under `label` (no-op when absent), spec §4.2 `untag`. -/
def indexRemove (idx : List (String × List Nat)) (label : String) (i : Nat) :
    List (String × List Nat) :=
  idx.map (fun p => if p.1 = label then (p.1, p.2.filter (fun j => j ≠ i)) else p)

/-- Purge every association of id `i` from the Tag Index (cascading
removal, spec §4.2). -/
def indexPurge (idx : List (String × List Nat)) (i : Nat) :
    List (String × List Nat) :=
  idx.map (fun p => (p.1, p.2.filter (fun j => j ≠ i)))

/-- Register all of a vector's own tags in the Tag Index on insertion
(spec §3: the Tag Index is incrementally updated on every insertion). -/
def indexAddAll (idx : List (String × List Nat)) (labels : List String) (i : Nat) :
    List (String × List Nat) :=
  labels.foldl (fun acc l => indexAdd acc l i) idx

/-- Modelled from the spec: insertion of an already-constructed Vector
into the store (the `.Add` the Python wrapper invokes on the core's
vector collection).  Validates dimensionality against the established
dimension — the first insertion sets it — and fails with
`DimensionMismatch` otherwise, leaving the store unchanged (spec §4.1,
§7: validation errors do not mutate state). -/
def storeAdd (s : Store α) (v : Vector α) : Store α × Option DbError :=
  match s.dim with
  | none =>
    ({ s with
        vectors := s.vectors ++ [v]
        dim := some v.values.length
        tagIndex := indexAddAll s.tagIndex v.tags v.id }, none)
  | some d =>
    if v.values.length = d then
      ({ s with
          vectors := s.vectors ++ [v]
          tagIndex := indexAddAll s.tagIndex v.tags v.id }, none)
    else (s, some DbError.DimensionMismatch)

/-- Modelled from the spec: the facade-level `add(vector) → id` (spec
§4.1) — assigns the next fresh id and inserts. -/
def addValues (s : Store α) (vals : List α) (tags : List String) :
    Store α × Option DbError :=
  match storeAdd s ⟨s.nextId, vals, tags⟩ with
  | (s', none) => ({ s' with nextId := s.nextId + 1 }, none)
  | (_, some e) => (s, some e)

/-- Modelled from the spec: `remove(id) → bool` — removes the vector and
cascades removal from the Tag Index; returns whether it existed. -/
def removeVec (s : Store α) (i : Nat) : Store α × Bool :=
  ({ s with
      vectors := s.vectors.filter (fun v => v.id ≠ i)
      tagIndex := indexPurge s.tagIndex i }, s.vectors.any (fun v => v.id = i))

/-- Modelled from the spec: `tag(id, label)` — adds `id` under `label`,
failing with `UnknownVector` (state unchanged) if `id` is absent. -/
def tagOp (s : Store α) (i : Nat) (label : String) : Store α × Option DbError :=
  if ∃ v ∈ s.vectors, v.id = i then
    ({ s with tagIndex := indexAdd s.tagIndex label i }, none)
  else (s, some DbError.UnknownVector)

/-- Modelled from the spec: `untag(id, label)` — removes the association,
a no-op when absent. -/
def untagOp (s : Store α) (i : Nat) (label : String) : Store α :=
  { s with tagIndex := indexRemove s.tagIndex label i }

/-- The search-engine comparison order on candidates for a query `q`:
strictly smaller distance first, exact distance ties broken by ascending
id (spec §4.3 determinism rule). -/
def searchLE (q : List α) (a b : Vector α) : Prop :=
  dist2 q a.values < dist2 q b.values ∨
    (dist2 q a.values = dist2 q b.values ∧ a.id ≤ b.id)

instance (q : List α) : DecidableRel (searchLE q) := by
  intro a b
  unfold searchLE
  infer_instance

instance (q : List α) : IsTotal (Vector α) (searchLE q) where
  total a b := by
    rcases lt_trichotomy (dist2 q a.values) (dist2 q b.values) with h | h | h
    · exact Or.inl (Or.inl h)
    · rcases Nat.le_total a.id b.id with h' | h'
      · exact Or.inl (Or.inr ⟨h, h'⟩)
      · exact Or.inr (Or.inr ⟨h.symm, h'⟩)
    · exact Or.inr (Or.inl h)

instance (q : List α) : IsTrans (Vector α) (searchLE q) where
  trans a b c hab hbc := by
    rcases hab with hab | ⟨hab, hab'⟩
    · rcases hbc with hbc | ⟨hbc, _⟩
      · exact Or.inl (hab.trans hbc)
      · exact Or.inl (hbc ▸ hab)
    · rcases hbc with hbc | ⟨hbc, hbc'⟩
      · exact Or.inl (hab ▸ hbc)
      · exact Or.inr ⟨hab.trans hbc, hab'.trans hbc'⟩

/-- Modelled from the spec: the candidate set of a search — the full
Vector Store, or, when a tag filter is given, the vectors whose id lies
in the intersection of the filter labels' id sets (spec §4.3). -/
def candidates (s : Store α) (tagFilter : Option (List String)) : List (Vector α) :=
  match tagFilter with
  | none => s.vectors
  | some labels => s.vectors.filter (fun v => labels.all (fun l => v.id ∈ idsFor s l))

/-- Modelled from the spec: the reference linear-scan k-NN semantics —
sort all candidates by ascending distance (ties by ascending id), keep
the first `k`, and pair each survivor with its distance to the query. -/
def searchCore (s : Store α) (q : List α) (k : Nat)
    (tagFilter : Option (List String)) : List (Vector α × α) :=
  ((List.insertionSort (searchLE q) (candidates s tagFilter)).take k).map
    (fun v => (v, dist2 q v.values))

/-- Modelled from the spec: the search entry point of the missing core —
rejects a query of the wrong dimensionality with `DimensionMismatch`;
with no established dimension the store is empty, so the result is empty
(spec §4.3). -/
def search (s : Store α) (q : List α) (k : Nat)
    (tagFilter : Option (List String)) : Except DbError (List (Vector α × α)) :=
  match s.dim with
  | none => Except.ok []
  | some d =>
    if q.length = d then Except.ok (searchCore s q k tagFilter)
    else Except.error DbError.DimensionMismatch

/-! ## Persistence layer (spec §4.4, §6) -/

/-- Modelled from the spec: the persisted file layout — a version tag,
the dimensionality, the record count, then one record per vector
(id, values, tag list), plus the Tag Index persisted alongside the
store.  The exact byte layout is implementation-defined, so the file is
modelled structurally. -/
structure SavedFile (α : Type) where
  version : Nat
  dim : Option Nat
  count : Nat
  records : List (Nat × List α × List String)
  tagIndex : List (String × List Nat)
  deriving DecidableEq, Repr

/-- The single version the modelled persistence layer reads and writes. -/
def currentVersion : Nat := 1

/-- Modelled from the spec: `save(path)` — serializes the full store
state (all vectors with ids, values, tags) plus the Tag Index. -/
def save (s : Store α) : SavedFile α :=
  ⟨currentVersion, s.dim, s.vectors.length,
    s.vectors.map (fun v => (v.id, v.values, v.tags)), s.tagIndex⟩

/-- A persisted file is well formed when every id its Tag Index mentions
belongs to one of its records (the data-model invariant of spec §3; a
file violating it encodes no valid store and is malformed content). -/
def fileWF (f : SavedFile α) : Bool :=
  f.tagIndex.all (fun p => p.2.all (fun i => f.records.any (fun r => r.1 = i)))

/-- Modelled from the spec: `load(path)` — all-or-nothing: an unsupported
version fails with `UnsupportedVersion`, malformed content with
`CorruptData`, in both cases leaving the in-memory store exactly as it
was; on success the in-memory state is fully replaced by the file's
content (spec §4.4, §7). -/
def loadInto (s : Store α) (f : SavedFile α) : Store α × Option DbError :=
  if f.version = currentVersion then
    if fileWF f then
      (⟨f.records.map (fun r => ⟨r.1, r.2.1, r.2.2⟩), f.dim, f.tagIndex,
        (f.records.map Prod.fst).foldl (fun a i => max a (i + 1)) 0⟩, none)
    else (s, some DbError.CorruptData)
  else (s, some DbError.UnsupportedVersion)

/-! ## Operation sequences (for the reachable-state invariant) -/

/-- One facade-level operation (spec §4.5): add, remove, tag, untag,
save, load. -/
inductive Op (α : Type) where
  | add (vals : List α) (tags : List String)
  | remove (i : Nat)
  | tag (i : Nat) (label : String)
  | untag (i : Nat) (label : String)
  | save
  | load (f : SavedFile α)

/-- Apply one operation to the store (`save` reads the state but does
not change it; failed operations leave the state as they found it). -/
def applyOp (s : Store α) : Op α → Store α
  | Op.add vals tags => (addValues s vals tags).1
  | Op.remove i => (removeVec s i).1
  | Op.tag i label => (tagOp s i label).1
  | Op.untag i label => untagOp s i label
  | Op.save => s
  | Op.load f => (loadInto s f).1

/-- Run a sequence of operations from a starting store. -/
def runOps (s : Store α) : List (Op α) → Store α
  | [] => s
  | op :: rest => runOps (applyOp s op) rest

/-- The Tag Index consistency invariant (spec §3): every id appearing
under any label in the Tag Index belongs to some vector of the store. -/
def TagOK (s : Store α) : Prop :=
  ∀ p ∈ s.tagIndex, ∀ i ∈ p.2, ∃ v ∈ s.vectors, v.id = i

instance (s : Store α) : Decidable (TagOK s) := by
  unfold TagOK
  infer_instance

/-! ## The Python wrapper (`src/neighborly/database.py`), embedded

The wrapper's `Vector.__init__` builds a fresh core vector from the given
values (`ClrVector(Array[Single](values))`), whose id is generated at
creation; `.NET` GUID generation is modelled by a fresh-id counter
threaded through the wrapper calls. -/

/-- The `Vector(values)` constructor of `database.py`: a fresh wrapper vector holding the
given values, a newly generated id, and no tags; returns the bumped
counter. -/
def pyVectorNew (vals : List α) (ctr : Nat) : Vector α × Nat :=
  (⟨ctr, vals, []⟩, ctr + 1)

/-- Argument shapes accepted by `VectorDatabase.add_vector` and
`VectorDatabase.search`: a plain list of numbers or a `Vector`. -/
inductive PyArg (α : Type) where
  | list (vals : List α)
  | vec (v : Vector α)

/-- The state a Python `VectorDatabase` call touches: the underlying
core store plus the fresh-id counter of vector creation. -/
structure PyState (α : Type) where
  db : Store α
  ctr : Nat
  deriving DecidableEq, Repr

/-- The method `VectorDatabase.add_vector` of `database.py`: a plain list is first
coerced via `Vector(values)` (consuming a fresh id), then the underlying
core vector is added to the core's vector collection. -/
def pyAddVector (st : PyState α) (arg : PyArg α) : PyState α :=
  match arg with
  | PyArg.list vals =>
    let p := pyVectorNew vals st.ctr
    { db := (storeAdd st.db p.1).1, ctr := p.2 }
  | PyArg.vec v => { db := (storeAdd st.db v).1, ctr := st.ctr }

/-- The result-marshalling loop of `VectorDatabase.search`:
`[Vector(list(result.Values)) for result in results]` — each core result
is rebuilt as a fresh wrapper `Vector` from its values alone. -/
def wrapResults (rs : List (Vector α × α)) (ctr : Nat) : List (Vector α) × Nat :=
  match rs with
  | [] => ([], ctr)
  | r :: rest =>
    let p := pyVectorNew r.1.values ctr
    let q := wrapResults rest p.2
    (p.1 :: q.1, q.2)

/-- The value sequence a wrapper search argument denotes (a plain-list
query is coerced via `Vector(query)`, which does not change its values). -/
def argValues : PyArg α → List α
  | PyArg.list vals => vals
  | PyArg.vec v => v.values

/-- The fresh-id counter after coercing a wrapper search argument (a
plain-list query consumes one fresh id for the query wrapper itself). -/
def argCtr (st : PyState α) : PyArg α → Nat
  | PyArg.list _ => st.ctr + 1
  | PyArg.vec _ => st.ctr

/-- The method `VectorDatabase.search` of `database.py`: coerce a plain-list query
via `Vector(query)`, call the core's `Search(query, k)` (no tag filter is
exposed), and rebuild every result as a fresh values-only `Vector`. -/
def pySearch (st : PyState α) (arg : PyArg α) (k : Nat) :
    Except DbError (List (Vector α) × Nat) :=
  match search st.db (argValues arg) k none with
  | Except.ok rs => Except.ok (wrapResults rs (argCtr st arg))
  | Except.error e => Except.error e

/-! ## The package import (`src/neighborly/__init__.py`), embedded -/

/-- The top-level names bound in module `neighborly.database` (its
imports, the loader helper, the two DLL classes, the two wrapper classes,
and the marshalling names imported at the bottom of the file). -/
def databaseModuleNames : List String :=
  ["clr", "sys", "os", "resource_filename", "load_neighborly_dll",
   "ClrVectorDatabase", "ClrVector", "Vector", "VectorDatabase",
   "Array", "Single"]

/-- The names `__init__.py` tries to import from `.database`, in source
order across its three `from .database import ...` lines. -/
def initImportedNames : List String :=
  ["VectorDatabase", "VectorTags", "create_vector_tags",
   "Vector", "VectorList", "create_vector_list"]

/-- Python `from .database import a, b, ...` name resolution: the first
requested name missing from the module raises `ImportError`; only if all
resolve does the package module load. -/
def importNeighborly : Except String Unit :=
  match initImportedNames.find? (fun n => !databaseModuleNames.contains n) with
  | some n => Except.error ("ImportError: cannot import name " ++ n)
  | none => Except.ok ()

/-! ## Concrete stores used in examples and witnesses -/

/-- The spec's worked example (spec §8): a dimension-2 store holding
A = [0,0] (id 0), B = [1,0] (id 1), C = [3,4] (id 2). -/
def exampleStore : Store ℤ :=
  ⟨[⟨0, [0, 0], []⟩, ⟨1, [1, 0], []⟩, ⟨2, [3, 4], []⟩], some 2, [], 3⟩

/-- A one-vector dimension-2 store: just [0,0] under id 0. -/
def oneStore : Store ℤ := ⟨[⟨0, [0, 0], []⟩], some 2, [], 1⟩

/-- A one-vector store whose vector is tagged "a". -/
def tagStore : Store ℤ := ⟨[⟨0, [1], ["a"]⟩], some 1, [("a", [0])], 1⟩

end Neighborly

namespace Neighborly

variable {α : Type} [LinearOrderedCommRing α]

/-! ## Helper lemmas -/

lemma searchCore_length (s : Store α) (q : List α) (k : Nat)
    (tf : Option (List String)) :
    (searchCore s q k tf).length = min k (candidates s tf).length := by
  unfold searchCore
  rw [List.length_map, List.length_take, List.length_insertionSort]

lemma searchCore_sorted (s : Store α) (q : List α) (k : Nat)
    (tf : Option (List String)) :
    (searchCore s q k tf).Pairwise (fun a b => a.2 ≤ b.2) := by
  unfold searchCore
  have hp : List.Pairwise (searchLE q)
      ((List.insertionSort (searchLE q) (candidates s tf)).take k) :=
    List.Pairwise.sublist (List.take_sublist _ _)
      (List.sorted_insertionSort (searchLE q) (candidates s tf))
  exact List.Pairwise.map _
    (fun a b hab => hab.elim (fun h => le_of_lt h) (fun h => le_of_eq h.1)) hp

lemma search_ok_of_dim (s : Store α) (q : List α) (k : Nat)
    (tf : Option (List String)) (hq : s.dim = some q.length) :
    search s q k tf = Except.ok (searchCore s q k tf) := by
  unfold search
  rw [hq]
  simp

lemma indexAdd_ids {idx : List (String × List Nat)} {label : String} {i : Nat}
    {p : String × List Nat} {j : Nat}
    (hp : p ∈ indexAdd idx label i) (hj : j ∈ p.2) :
    (∃ q ∈ idx, j ∈ q.2) ∨ j = i := by
  induction idx with
  | nil =>
    simp only [indexAdd, List.mem_singleton] at hp
    subst hp
    simp only [List.mem_singleton] at hj
    exact Or.inr hj
  | cons a rest ih =>
    unfold indexAdd at hp
    by_cases h : a.1 = label
    · rw [if_pos h] at hp
      rcases List.mem_cons.1 hp with h1 | h1
      · subst h1
        rcases List.mem_append.1 hj with h2 | h2
        · exact Or.inl ⟨a, List.mem_cons_self a rest, h2⟩
        · simp only [List.mem_singleton] at h2
          exact Or.inr h2
      · exact Or.inl ⟨p, List.mem_cons_of_mem a h1, hj⟩
    · rw [if_neg h] at hp
      rcases List.mem_cons.1 hp with h1 | h1
      · subst h1
        exact Or.inl ⟨p, List.mem_cons_self p rest, hj⟩
      · rcases ih h1 with ⟨q, hq, hjq⟩ | h2
        · exact Or.inl ⟨q, List.mem_cons_of_mem a hq, hjq⟩
        · exact Or.inr h2

lemma indexAddAll_ids {labels : List String} {idx : List (String × List Nat)}
    {i : Nat} {p : String × List Nat} {j : Nat}
    (hp : p ∈ indexAddAll idx labels i) (hj : j ∈ p.2) :
    (∃ q ∈ idx, j ∈ q.2) ∨ j = i := by
  induction labels generalizing idx with
  | nil => exact Or.inl ⟨p, hp, hj⟩
  | cons l rest ih =>
    rcases @ih (indexAdd idx l i) hp with ⟨q, hq, hjq⟩ | h2
    · exact indexAdd_ids hq hjq
    · exact Or.inr h2

lemma tagOK_extend {vs : List (Vector α)} {idx : List (String × List Nat)}
    {v : Vector α} (hs : ∀ p ∈ idx, ∀ i ∈ p.2, ∃ w ∈ vs, w.id = i) :
    ∀ p ∈ indexAddAll idx v.tags v.id, ∀ i ∈ p.2, ∃ w ∈ vs ++ [v], w.id = i := by
  intro p hp i hi
  rcases indexAddAll_ids hp hi with ⟨q, hq, hiq⟩ | h
  · obtain ⟨w, hw, hwid⟩ := hs q hq i hiq
    exact ⟨w, List.mem_append_left _ hw, hwid⟩
  · exact ⟨v, List.mem_append_right _ (List.mem_singleton_self v), h.symm⟩

lemma tagOK_storeAdd {s : Store α} {v : Vector α} (hs : TagOK s) :
    TagOK (storeAdd s v).1 := by
  rcases hdim : s.dim with _ | d
  · simp only [storeAdd, hdim]
    exact tagOK_extend hs
  · simp only [storeAdd, hdim]
    by_cases h : v.values.length = d
    · rw [if_pos h]
      exact tagOK_extend hs
    · rw [if_neg h]
      exact hs

lemma tagOK_addValues {s : Store α} {vals : List α} {tags : List String}
    (hs : TagOK s) : TagOK (addValues s vals tags).1 := by
  unfold addValues
  have h := @tagOK_storeAdd α _ s ⟨s.nextId, vals, tags⟩ hs
  cases hsa : storeAdd s ⟨s.nextId, vals, tags⟩ with
  | mk s' e =>
    rw [hsa] at h
    cases e with
    | none => exact fun p hp i hi => h p hp i hi
    | some e' => exact hs

lemma tagOK_removeVec {s : Store α} {i : Nat} (hs : TagOK s) :
    TagOK (removeVec s i).1 := by
  intro p hp j hj
  obtain ⟨q, hq, hpq⟩ := List.mem_map.1 hp
  subst hpq
  obtain ⟨hjq, hji⟩ := List.mem_filter.1 hj
  obtain ⟨w, hw, hwid⟩ := hs q hq j hjq
  refine ⟨w, List.mem_filter.2 ⟨hw, ?_⟩, hwid⟩
  simpa [hwid] using hji

lemma tagOK_tagOp {s : Store α} {i : Nat} {label : String} (hs : TagOK s) :
    TagOK (tagOp s i label).1 := by
  unfold tagOp
  by_cases h : ∃ v ∈ s.vectors, v.id = i
  · rw [if_pos h]
    intro p hp j hj
    rcases indexAdd_ids hp hj with ⟨q, hq, hjq⟩ | hji
    · exact hs q hq j hjq
    · subst hji
      exact h
  · rw [if_neg h]
    exact hs

lemma tagOK_untagOp {s : Store α} {i : Nat} {label : String} (hs : TagOK s) :
    TagOK (untagOp s i label) := by
  intro p hp j hj
  obtain ⟨q, hq, hpq⟩ := List.mem_map.1 hp
  subst hpq
  by_cases h : q.1 = label
  · rw [if_pos h] at hj
    obtain ⟨hjq, _⟩ := List.mem_filter.1 hj
    exact hs q hq j hjq
  · rw [if_neg h] at hj
    exact hs q hq j hj

lemma tagOK_loadInto {s : Store α} {f : SavedFile α} (hs : TagOK s) :
    TagOK (loadInto s f).1 := by
  unfold loadInto
  by_cases hv : f.version = currentVersion
  · rw [if_pos hv]
    by_cases hw : fileWF f = true
    · rw [if_pos hw]
      intro p hp i hi
      unfold fileWF at hw
      simp only [List.all_eq_true, List.any_eq_true, decide_eq_true_eq] at hw
      obtain ⟨r, hr, hri⟩ := hw p hp i hi
      exact ⟨⟨r.1, r.2.1, r.2.2⟩, List.mem_map_of_mem _ hr, hri⟩
    · rw [if_neg hw]
      exact hs
  · rw [if_neg hv]
    exact hs

lemma tagOK_applyOp {s : Store α} (op : Op α) (hs : TagOK s) :
    TagOK (applyOp s op) := by
  cases op with
  | add vals tags => exact tagOK_addValues hs
  | remove i => exact tagOK_removeVec hs
  | tag i label => exact tagOK_tagOp hs
  | untag i label => exact tagOK_untagOp hs
  | save => exact hs
  | load f => exact tagOK_loadInto hs

lemma tagOK_runOps {s : Store α} (ops : List (Op α)) (hs : TagOK s) :
    TagOK (runOps s ops) := by
  induction ops generalizing s with
  | nil => exact hs
  | cons op rest ih => exact ih (tagOK_applyOp op hs)

lemma wrapResults_id_ge {rs : List (Vector α × α)} {c : Nat} :
    ∀ r ∈ (wrapResults rs c).1, c ≤ r.id := by
  induction rs generalizing c with
  | nil =>
    intro r hr
    simp [wrapResults] at hr
  | cons x rest ih =>
    intro r hr
    simp only [wrapResults, pyVectorNew] at hr
    rcases List.mem_cons.1 hr with rfl | hr'
    · exact Nat.le_refl _
    · exact Nat.le_of_succ_le (ih r hr')

lemma argCtr_ge (st : PyState α) (arg : PyArg α) : st.ctr ≤ argCtr st arg := by
  cases arg with
  | list vals => exact Nat.le_succ _
  | vec v => exact Nat.le_refl _

lemma wrapResults_values (rs : List (Vector α × α)) (c : Nat) :
    (wrapResults rs c).1.map Vector.values = rs.map (fun r => r.1.values) := by
  induction rs generalizing c with
  | nil => rfl
  | cons x rest ih =>
    simp only [wrapResults, pyVectorNew, List.map_cons]
    exact congrArg (List.cons x.1.values) (ih (c + 1))

lemma search_result_sorted (s : Store α) (q : List α) (k : Nat)
    (tf : Option (List String)) :
    ((search s q k tf).toOption.getD []).Pairwise (fun a b => a.2 ≤ b.2) := by
  rcases hdim : s.dim with _ | d
  · simp [search, hdim, Except.toOption]
  · by_cases h : q.length = d
    · simp only [search, hdim, if_pos h, Except.toOption, Option.getD]
      exact searchCore_sorted s q k tf
    · simp [search, hdim, if_neg h, Except.toOption]

/-! ## Claim theorems -/

/-- C1: for a query of the store's dimensionality and positive `k`,
`search(q, k)` succeeds, returns at most `k` results, exactly `k` when
the candidate set has at least `k` vectors and all candidates otherwise,
ordered by non-decreasing distance from the query. -/
theorem search_count_and_order (s : Store α) (q : List α) (k : Nat)
    (tf : Option (List String)) (hk : 0 < k) (hq : s.dim = some q.length) :
    ∃ res, search s q k tf = Except.ok res ∧
      res.length ≤ k ∧
      (k ≤ (candidates s tf).length → res.length = k) ∧
      ((candidates s tf).length < k → res.length = (candidates s tf).length) ∧
      res.Pairwise (fun a b => a.2 ≤ b.2) := by
  refine ⟨searchCore s q k tf, search_ok_of_dim s q k tf hq, ?_, ?_, ?_,
    searchCore_sorted s q k tf⟩
  · rw [searchCore_length]
    exact Nat.min_le_left _ _
  · intro h
    rw [searchCore_length]
    exact Nat.min_eq_left h
  · intro h
    rw [searchCore_length]
    exact Nat.min_eq_right (Nat.le_of_lt h)

/-- Witness for C1 at the spec's worked example store with q = [0,0],
k = 2, no tag filter. -/
theorem search_count_and_order_witness :
    0 < 2 ∧ exampleStore.dim = some (List.length ([0, 0] : List ℤ)) ∧
    ∃ res, search exampleStore [0, 0] 2 none = Except.ok res ∧
      res.length ≤ 2 ∧
      (2 ≤ (candidates exampleStore none).length → res.length = 2) ∧
      ((candidates exampleStore none).length < 2 →
        res.length = (candidates exampleStore none).length) ∧
      res.Pairwise (fun a b => a.2 ≤ b.2) :=
  ⟨by decide, by decide,
    search_count_and_order exampleStore [0, 0] 2 none (by decide) (by decide)⟩

/-- C2: against an established dimension `d`, inserting a vector of
length `n` succeeds iff `n = d`; on a mismatch the operation fails with
`DimensionMismatch` and the store is unchanged; on a match the vector is
appended; a first insertion (no established dimension) establishes the
vector's own length as the dimension. -/
theorem add_dimension_check (s : Store α) (v : Vector α) (d : Nat)
    (hd : s.dim = some d) :
    ((storeAdd s v).2 = none ↔ v.values.length = d) ∧
    (v.values.length ≠ d → storeAdd s v = (s, some DbError.DimensionMismatch)) ∧
    (v.values.length = d → (storeAdd s v).1.vectors = s.vectors ++ [v]) ∧
    (∀ s₀ : Store α, s₀.dim = none →
      (storeAdd s₀ v).1.dim = some v.values.length ∧ (storeAdd s₀ v).2 = none) := by
  refine ⟨?_, ?_, ?_, ?_⟩
  · unfold storeAdd
    rw [hd]
    by_cases h : v.values.length = d <;> simp [h]
  · intro h
    unfold storeAdd
    rw [hd]
    simp [h]
  · intro h
    unfold storeAdd
    rw [hd]
    simp [h]
  · intro s₀ h₀
    unfold storeAdd
    rw [h₀]
    exact ⟨rfl, rfl⟩

/-- Witness for C2: adding a 3-dimensional vector to the dimension-2
example store fails with `DimensionMismatch` and leaves it unchanged. -/
theorem add_dimension_check_witness :
    storeAdd exampleStore ⟨9, [1, 2, 3], []⟩ =
      (exampleStore, some DbError.DimensionMismatch) :=
  (add_dimension_check exampleStore ⟨9, [1, 2, 3], []⟩ 2 (by decide)).2.1 (by decide)

/-- C3: saving any store satisfying the Tag Index invariant and loading
the file into a fresh store succeeds and reproduces exactly the original
sequence of (id, values, tags) triples. -/
theorem save_load_roundtrip (s : Store α) (hs : TagOK s) :
    (loadInto emptyStore (save s)).2 = none ∧
    (loadInto emptyStore (save s)).1.vectors.map (fun v => (v.id, v.values, v.tags)) =
      s.vectors.map (fun v => (v.id, v.values, v.tags)) := by
  have hwf : fileWF (save s) = true := by
    unfold fileWF save
    simp only [List.all_eq_true, List.any_eq_true, decide_eq_true_eq]
    intro p hp i hi
    obtain ⟨v, hv, hvid⟩ := hs p hp i hi
    exact ⟨(v.id, v.values, v.tags), List.mem_map_of_mem _ hv, hvid⟩
  have hver : (save s).version = currentVersion := rfl
  constructor
  · unfold loadInto
    rw [if_pos hver, if_pos hwf]
  · unfold loadInto
    rw [if_pos hver, if_pos hwf]
    show ((save s).records.map (fun r => (⟨r.1, r.2.1, r.2.2⟩ : Vector α))).map
      (fun v => (v.id, v.values, v.tags)) = _
    unfold save
    rw [List.map_map, List.map_map]
    rfl

/-- Witness for C3 at the worked example store. -/
theorem save_load_roundtrip_witness :
    (loadInto emptyStore (save exampleStore)).2 = none ∧
    (loadInto emptyStore (save exampleStore)).1.vectors.map
      (fun v => (v.id, v.values, v.tags)) =
      exampleStore.vectors.map (fun v => (v.id, v.values, v.tags)) :=
  save_load_roundtrip exampleStore (by decide)

/-- C4: loading a file whose version field is not the supported version
fails with `UnsupportedVersion` and leaves the in-memory store exactly as
it was. -/
theorem load_unsupported_version (s : Store α) (f : SavedFile α)
    (hv : f.version ≠ currentVersion) :
    loadInto s f = (s, some DbError.UnsupportedVersion) := by
  unfold loadInto
  rw [if_neg hv]

/-- Witness for C4: loading a version-7 file over the example store. -/
theorem load_unsupported_version_witness :
    loadInto exampleStore ⟨7, some 2, 0, [], []⟩ =
      (exampleStore, some DbError.UnsupportedVersion) :=
  load_unsupported_version exampleStore ⟨7, some 2, 0, [], []⟩ (by decide)

/-- C7: on the spec's worked example store (A=[0,0], B=[1,0], C=[3,4]),
`search([0,0], 2)` returns exactly [A at distance 0, B at distance 1] in
that order. -/
theorem search_worked_example :
    search exampleStore [0, 0] 2 none =
      Except.ok [(⟨0, [0, 0], []⟩, 0), (⟨1, [1, 0], []⟩, 1)] := by
  rfl

/-- C6: in every store reachable from the empty store by any sequence of
add, remove, tag, untag, save, and load operations, every id appearing in
the Tag Index under any label belongs to a vector of the Vector Store;
and removing a vector purges all of its tag associations. -/
theorem reachable_tag_invariant (ops : List (Op α)) :
    TagOK (runOps (emptyStore : Store α) ops) ∧
    (∀ (s : Store α) (i : Nat), ∀ p ∈ (removeVec s i).1.tagIndex, i ∉ p.2) := by
  constructor
  · refine tagOK_runOps ops ?_
    intro p hp
    exact absurd hp (List.not_mem_nil p)
  · intro s i p hp hmem
    obtain ⟨q, hq, hpq⟩ := List.mem_map.1 hp
    subst hpq
    obtain ⟨_, hne⟩ := List.mem_filter.1 hmem
    simp at hne

/-- Witness for C6: the invariant after a one-add run holds at the one
index entry it creates, and a concrete removal leaves an index entry not
containing the removed id. -/
theorem reachable_tag_invariant_witness :
    (∃ v ∈ (runOps (emptyStore : Store ℤ) [Op.add [1] ["a"]]).vectors, v.id = 0) ∧
    (0 : Nat) ∉ (("a", ([] : List Nat))).2 :=
  ⟨(reachable_tag_invariant ([Op.add [1] ["a"]] : List (Op ℤ))).1 ("a", [0]) (by decide)
      0 (by decide),
    (reachable_tag_invariant ([] : List (Op ℤ))).2 tagStore 0 ("a", []) (by decide)⟩

/-- C8: importing the `neighborly` package always raises ImportError:
`__init__.py` requests VectorTags, create_vector_tags, VectorList and
create_vector_list from `neighborly.database`, none of which that module
defines — of the declared public interface it defines only `Vector` and
`VectorDatabase` — so name resolution fails before the package loads. -/
theorem import_neighborly_fails :
    importNeighborly = Except.error "ImportError: cannot import name VectorTags" ∧
    (["VectorTags", "create_vector_tags", "VectorList", "create_vector_list"].all
      (fun n => !databaseModuleNames.contains n)) = true ∧
    databaseModuleNames.contains "Vector" = true ∧
    databaseModuleNames.contains "VectorDatabase" = true :=
  ⟨rfl, rfl, rfl, rfl⟩

/-- C9: every Vector the wrapper's search returns is freshly constructed,
so its id differs from the id of every vector stored in the database —
search results never preserve the stored vector's identity (stored ids
all precede the current fresh-id counter). -/
theorem search_results_fresh (st : PyState α) (arg : PyArg α) (k : Nat)
    (rs : List (Vector α)) (c' : Nat)
    (hb : ∀ v ∈ st.db.vectors, v.id < st.ctr)
    (hok : pySearch st arg k = Except.ok (rs, c')) :
    ∀ r ∈ rs, ∀ v ∈ st.db.vectors, r.id ≠ v.id := by
  intro r hr v hv
  unfold pySearch at hok
  cases hsr : search st.db (argValues arg) k none with
  | error e =>
    rw [hsr] at hok
    exact absurd hok (by simp)
  | ok core =>
    rw [hsr] at hok
    simp only [Except.ok.injEq] at hok
    have hr' : r ∈ (wrapResults core (argCtr st arg)).1 := by
      rw [hok]
      exact hr
    have hge : argCtr st arg ≤ r.id := wrapResults_id_ge r hr'
    have hlt : v.id < r.id :=
      Nat.lt_of_lt_of_le (hb v hv) (Nat.le_trans (argCtr_ge st arg) hge)
    exact (Nat.ne_of_lt hlt).symm

/-- Witness for C9: searching the one-vector store returns the fresh
vector id 2, distinct from the stored id 0. -/
theorem search_results_fresh_witness :
    (⟨2, [0, 0], []⟩ : Vector ℤ).id ≠ (⟨0, [0, 0], []⟩ : Vector ℤ).id :=
  search_results_fresh (⟨oneStore, 1⟩ : PyState ℤ) (PyArg.list [0, 0]) 1
    [⟨2, [0, 0], []⟩] 3 (by decide) (by rfl) ⟨2, [0, 0], []⟩ (by decide)
    ⟨0, [0, 0], []⟩ (by decide)

/-- C10: `add_vector(xs)` on a plain list is observationally equal to
constructing `Vector(xs)` first (which consumes the same fresh id) and
then calling `add_vector` with that Vector: the resulting wrapper states
coincide. -/
theorem add_vector_list_coercion (st : PyState α) (vals : List α) :
    pyAddVector st (PyArg.list vals) =
      pyAddVector ⟨st.db, (pyVectorNew vals st.ctr).2⟩
        (PyArg.vec (pyVectorNew vals st.ctr).1) := rfl

/-- C5 counterexample: at two queries lying at different distances from
the single stored vector, the wrapper's search returns identical values —
so the returned sequence cannot carry the computed distance to the query;
moreover the one result carries the fresh id 2 while the store's only
vector has id 0, so results do not carry the stored vector either. -/
theorem search_results_carry_no_distance :
    pySearch (⟨oneStore, 1⟩ : PyState ℤ) (PyArg.list [0, 0]) 1 =
      pySearch (⟨oneStore, 1⟩ : PyState ℤ) (PyArg.list [1, 0]) 1 ∧
    dist2 ([0, 0] : List ℤ) [0, 0] ≠ dist2 ([1, 0] : List ℤ) [0, 0] ∧
    pySearch (⟨oneStore, 1⟩ : PyState ℤ) (PyArg.list [0, 0]) 1 =
      Except.ok ([⟨2, [0, 0], []⟩], 3) ∧
    oneStore.vectors = [⟨0, [0, 0], []⟩] :=
  ⟨rfl, by decide, rfl, rfl⟩

/-- C5 amended: the wrapper's search returns an ordered sequence of
freshly built Vectors whose values are exactly the values of the core's
(vector, distance) results, in the core's ascending-distance order; the
distances themselves are not part of the returned sequence. -/
theorem pySearch_values_in_distance_order (st : PyState α) (arg : PyArg α)
    (k : Nat) :
    (pySearch st arg k).toOption.map (fun p => p.1.map Vector.values) =
      (search st.db (argValues arg) k none).toOption.map
        (fun rs => rs.map (fun r => r.1.values)) ∧
    ((search st.db (argValues arg) k none).toOption.getD []).Pairwise
      (fun a b => a.2 ≤ b.2) := by
  constructor
  · unfold pySearch
    cases hsr : search st.db (argValues arg) k none with
    | ok core => simp [Except.toOption, wrapResults_values]
    | error e => simp [Except.toOption]
  · exact search_result_sorted st.db (argValues arg) k none

end Neighborly
